import Mathlib

/-!
Shallow embedding of the retry crate in src/lib.rs (struct `Attempt` and its
methods), together with proofs about it.

Modelling choices:

* The wrapped fallible closure (Rust bound `F: Fn() -> Result<T, E>`) is
  modelled by the sequence of outcomes of its successive invocations: a
  function `ℕ → Except E T`, where index `i` is the outcome of the
  `(i+1)`-th call.
* `std::time::Duration` values and `f32` growth factors are both modelled as
  rationals, with exact multiplication.  `Duration::mul_f32` panics when the
  product is negative (it is built on `Duration::from_secs_f32`, which
  panics on negative input); the model keeps exactly that partiality:
  `durMulF32` is `none` precisely when the Rust call would panic.
* The `assert!` in `max_tries` and the `unreachable!` in `infinitely` are
  modelled by `Option`.
* The structurally infinite `for iteration in 0..` loop is modelled with
  explicit fuel; the outer `none` means the fuel ran out before the loop
  returned.  Every bounded execution is settled at a fuel value that
  provably suffices, so the fuel is a pure bookkeeping device.
* The side effects of one execution are recorded in the returned value: the
  number of operation invocations performed, and the list of wait durations
  (`std::thread::sleep` in `run`, `tokio::time::sleep` in `run_async`) in
  the order they were performed.
-/

/-- Default magnitude by which the delay between tries increases
(Rust constant `DEFAULT_DELAY_GROWTH: f32 = 1.25`). -/
def DEFAULT_DELAY_GROWTH : ℚ := 5 / 4

/-- Default cap on number of tries (Rust constant `DEFAULT_MAX_TRIES: usize = 10`). -/
def DEFAULT_MAX_TRIES : ℕ := 10

/-- The retry policy value, field for field the Rust struct `Attempt<F>`:
the wrapped function, the optional delay between attempts, the growth
magnitude the delay is multiplied by after each try, and the optional cap
on the number of tries. -/
structure Attempt (F : Type) where
  func : F
  delay : Option ℚ
  delay_growth_magnitude : ℚ
  max_tries : Option ℕ

/-- Model of `Attempt::to`: the constructor with the default configuration
(no delay, growth magnitude 1.25, at most 10 tries). -/
def Attempt.to {F : Type} (func : F) : Attempt F :=
  { func := func
    delay := none
    delay_growth_magnitude := DEFAULT_DELAY_GROWTH
    max_tries := some DEFAULT_MAX_TRIES }

/-- Model of `Attempt::no_max_tries`: removes the cap on the number of tries. -/
def Attempt.no_max_tries {F : Type} (a : Attempt F) : Attempt F :=
  { a with max_tries := none }

/-- Model of `Attempt::max_tries` (named `set_max_tries` here because the
field projection already uses the name): `assert!(max_tries > 0)` and then
set the field.  The assertion failure (a panic) is modelled by `none`. -/
def Attempt.set_max_tries {F : Type} (a : Attempt F) (max_tries : ℕ) :
    Option (Attempt F) :=
  if 0 < max_tries then some { a with max_tries := some max_tries } else none

/-- Model of `Attempt::no_delay`: removes the delay between calls. -/
def Attempt.no_delay {F : Type} (a : Attempt F) : Attempt F :=
  { a with delay := none }

/-- Model of `Attempt::delay` (named `set_delay` here because the field
projection already uses the name): sets the delay between calls. -/
def Attempt.set_delay {F : Type} (a : Attempt F) (delay : ℚ) : Attempt F :=
  { a with delay := some delay }

/-- Model of `Attempt::delay_growth_magnitude` (named
`set_delay_growth_magnitude` here because the field projection already uses
the name): sets the growth magnitude, with no validation whatsoever. -/
def Attempt.set_delay_growth_magnitude {F : Type} (a : Attempt F) (magnitude : ℚ) :
    Attempt F :=
  { a with delay_growth_magnitude := magnitude }

/-- Model of `Duration::mul_f32` as used in `delay = Some(epoch_delay.mul_f32(...))`:
exact rational multiplication, with `none` for the panic that the Rust
method raises when the resulting duration would be negative. -/
def durMulF32 (d : ℚ) (g : ℚ) : Option ℚ :=
  if d * g < 0 then none else some (d * g)

/-- Model of the exhaustion test in the loop body:
`if let Some(max_tries) = self.max_tries { if iteration + 1 >= max_tries { return Err(err) } }`. -/
def exhausted (max_tries : Option ℕ) (iteration : ℕ) : Bool :=
  match max_tries with
  | some m => decide (iteration + 1 ≥ m)
  | none => false

/-- Decidable equality for the outcome type of one call, needed to evaluate
concrete runs. -/
instance instDecEqExcept {E T : Type} [DecidableEq E] [DecidableEq T] :
    DecidableEq (Except E T) := fun x y =>
  match x, y with
  | Except.ok a, Except.ok b =>
    if h : a = b then isTrue (by rw [h]) else isFalse (fun hc => h (Except.ok.inj hc))
  | Except.ok _, Except.error _ => isFalse (fun hc => Except.noConfusion hc)
  | Except.error _, Except.ok _ => isFalse (fun hc => Except.noConfusion hc)
  | Except.error e, Except.error f =>
    if h : e = f then isTrue (by rw [h]) else isFalse (fun hc => h (Except.error.inj hc))

/-- Everything one fueled execution of the retry loop did: either the loop
returned a result `r` (having called the operation `calls` times and slept
for the durations in `waits`, in order), or it panicked inside
`Duration::mul_f32` (recording the calls and waits performed up to the
panic, the sleep preceding the multiplication included). -/
inductive RunResult (T E : Type) where
  | result (r : Except E T) (calls : ℕ) (waits : List ℚ) : RunResult T E
  | panicked (calls : ℕ) (waits : List ℚ) : RunResult T E
  deriving DecidableEq

/-- Prepends one wait duration to the wait trace of a loop outcome. -/
def RunResult.addWait {T E : Type} (d : ℚ) : RunResult T E → RunResult T E
  | RunResult.result r c ws => RunResult.result r c (d :: ws)
  | RunResult.panicked c ws => RunResult.panicked c (d :: ws)

/-- Fueled transliteration of the loop of `Attempt::run` (src/lib.rs lines
171-190): call the operation; on `Ok` return it; on `Err` return the error
if the try budget is exhausted, otherwise sleep for the current delay (when
one is set) and multiply the delay by the growth magnitude — a
multiplication that panics when its result is negative — then loop. -/
def runAux {T E : Type} (max_tries : Option ℕ) (growth : ℚ)
    (ops : ℕ → Except E T) :
    ℕ → ℕ → Option ℚ → Option (RunResult T E)
  | 0, _, _ => none
  | fuel + 1, iteration, delay =>
    match ops iteration with
    | Except.ok res => some (RunResult.result (Except.ok res) (iteration + 1) [])
    | Except.error err =>
      if exhausted max_tries iteration then
        some (RunResult.result (Except.error err) (iteration + 1) [])
      else
        match delay with
        | some epoch_delay =>
          match durMulF32 epoch_delay growth with
          | some next_delay =>
            Option.map (RunResult.addWait epoch_delay)
              (runAux max_tries growth ops fuel (iteration + 1) (some next_delay))
          | none => some (RunResult.panicked (iteration + 1) [epoch_delay])
        | none => runAux max_tries growth ops fuel (iteration + 1) none

/-- Model of `Attempt::run`: run the loop from iteration 0 with the
configured initial delay. -/
def Attempt.run {T E : Type} (a : Attempt (ℕ → Except E T)) (fuel : ℕ) :
    Option (RunResult T E) :=
  runAux a.max_tries a.delay_growth_magnitude a.func fuel 0 a.delay

/-- Fueled transliteration of the loop of `Attempt::run_async` (src/lib.rs
lines 217-236), kept as its own definition because the Rust source spells
the loop out a second time; the only difference in the source is the wait
primitive (`tokio::time::sleep` instead of `std::thread::sleep`), which the
trace records identically. -/
def runAsyncAux {T E : Type} (max_tries : Option ℕ) (growth : ℚ)
    (ops : ℕ → Except E T) :
    ℕ → ℕ → Option ℚ → Option (RunResult T E)
  | 0, _, _ => none
  | fuel + 1, iteration, delay =>
    match ops iteration with
    | Except.ok res => some (RunResult.result (Except.ok res) (iteration + 1) [])
    | Except.error err =>
      if exhausted max_tries iteration then
        some (RunResult.result (Except.error err) (iteration + 1) [])
      else
        match delay with
        | some epoch_delay =>
          match durMulF32 epoch_delay growth with
          | some next_delay =>
            Option.map (RunResult.addWait epoch_delay)
              (runAsyncAux max_tries growth ops fuel (iteration + 1) (some next_delay))
          | none => some (RunResult.panicked (iteration + 1) [epoch_delay])
        | none => runAsyncAux max_tries growth ops fuel (iteration + 1) none

/-- Model of `Attempt::run_async`. -/
def Attempt.run_async {T E : Type} (a : Attempt (ℕ → Except E T)) (fuel : ℕ) :
    Option (RunResult T E) :=
  runAsyncAux a.max_tries a.delay_growth_magnitude a.func fuel 0 a.delay

/-- Model of `Attempt::infinitely`: construct with the defaults, drop the
cap on tries, run, and unwrap the result.  The `unreachable!` taken when
the run returns an error is modelled as `none` (as is running out of
fuel); a successful run yields `some` of the success value. -/
def Attempt.infinitely {T E : Type} (func : ℕ → Except E T) (fuel : ℕ) :
    Option T :=
  match (Attempt.to func).no_max_tries.run fuel with
  | some (RunResult.result (Except.ok t) _ _) => some t
  | _ => none

/-- Configurations whose delay-growth multiplication can never produce a
negative duration, so that `Duration::mul_f32` cannot panic: either no
delay is configured, or the stored delay is non-negative (as every Rust
`Duration` is) and the growth magnitude is non-negative. -/
def Attempt.DelaySafe {F : Type} (a : Attempt F) : Prop :=
  ∀ d, a.delay = some d → 0 ≤ d ∧ 0 ≤ a.delay_growth_magnitude

/-- Operation whose every invocation fails, used by concrete instances. -/
def alwaysFail : ℕ → Except Unit Unit := fun _ => Except.error ()

/-- Operation that fails on its first invocation and succeeds from the
second invocation on, used by concrete instances. -/
def failThenOk : ℕ → Except Unit Unit := fun i =>
  if i = 0 then Except.error () else Except.ok ()

/-- Operation that fails on its first two invocations and succeeds from the
third invocation on, used by concrete instances. -/
def failTwiceThenOk : ℕ → Except Unit Unit := fun i =>
  if 2 ≤ i then Except.ok () else Except.error ()

/-- Policy with a positive delay, a negative growth magnitude and two tries,
around an always-failing operation. -/
def negGrowthTwoTries : Attempt (ℕ → Except Unit Unit) :=
  { func := alwaysFail
    delay := some 1
    delay_growth_magnitude := -1
    max_tries := some 2 }

/-- Policy with a positive delay, a negative growth magnitude and three
tries, around an always-failing operation. -/
def negGrowthThreeTries : Attempt (ℕ → Except Unit Unit) :=
  { func := alwaysFail
    delay := some 1
    delay_growth_magnitude := -1
    max_tries := some 3 }

/-- Policy with a positive delay, a negative growth magnitude and three
tries, around an operation that succeeds on its second invocation. -/
def negGrowthSucceedsSecond : Attempt (ℕ → Except Unit Unit) :=
  { func := failThenOk
    delay := some 1
    delay_growth_magnitude := -1
    max_tries := some 3 }

/-- Policy with a positive delay, a positive growth magnitude and three
tries, around an operation that succeeds on its second invocation. -/
def posGrowthSucceedsSecond : Attempt (ℕ → Except Unit Unit) :=
  { func := failThenOk
    delay := some 1
    delay_growth_magnitude := 2
    max_tries := some 3 }

/-- Policy with delay 2, growth magnitude 3 and four tries, around an
always-failing operation. -/
def posGrowthFourTries : Attempt (ℕ → Except Unit Unit) :=
  { func := alwaysFail
    delay := some 2
    delay_growth_magnitude := 3
    max_tries := some 4 }

/-- Policy around an always-failing operation with delay 5, growth
magnitude -7 and a single try. -/
def oneTryNegGrowth : Attempt (ℕ → Except Unit Unit) :=
  { func := alwaysFail
    delay := some 5
    delay_growth_magnitude := -7
    max_tries := some 1 }

/-- Default policy around an always-failing operation, reconfigured through
the builder surface with delay 1 and growth magnitude -1. -/
def negGrowthDefaultTries : Attempt (ℕ → Except Unit Unit) :=
  ((Attempt.to alwaysFail).set_delay 1).set_delay_growth_magnitude (-1)

/-- Default policy around an always-failing operation, reconfigured through
the builder surface with delay 1 and growth magnitude 1. -/
def oneGrowthDefaultTries : Attempt (ℕ → Except Unit Unit) :=
  ((Attempt.to alwaysFail).set_delay 1).set_delay_growth_magnitude 1

/-- Unbounded retry-forever-with-backoff policy: the default policy around
an always-failing operation with the try cap removed and delay 1 (default
growth magnitude 5/4). -/
def unboundedDelayTries : Attempt (ℕ → Except Unit Unit) :=
  ((Attempt.to alwaysFail).no_max_tries).set_delay 1

theorem runAux_async_eq {T E : Type} (max_tries : Option ℕ) (growth : ℚ)
    (ops : ℕ → Except E T) :
    ∀ (fuel iteration : ℕ) (delay : Option ℚ),
      runAsyncAux max_tries growth ops fuel iteration delay =
        runAux max_tries growth ops fuel iteration delay := by
  intro fuel
  induction fuel with
  | zero => intro iteration delay; rfl
  | succ f ih =>
    intro iteration delay
    simp only [runAux, runAsyncAux]
    cases ops iteration with
    | ok res => rfl
    | error err =>
      cases hex : exhausted max_tries iteration with
      | true => simp [hex]
      | false =>
        simp only [hex, Bool.false_eq_true, if_false]
        cases delay with
        | none => exact ih (iteration + 1) none
        | some d =>
          cases hm : durMulF32 d growth with
          | none => simp only [hm]
          | some nd => simp only [hm, ih]

theorem runAux_fail_no_delay {T E : Type} (m : ℕ) (growth : ℚ)
    (ops : ℕ → Except E T) (e : ℕ → E)
    (hops : ∀ i, ops i = Except.error (e i)) :
    ∀ (fuel iteration : ℕ), iteration < m → m - iteration ≤ fuel →
      runAux (some m) growth ops fuel iteration none =
        some (RunResult.result (Except.error (e (m - 1))) m []) := by
  intro fuel
  induction fuel with
  | zero => intro iteration h1 h2; omega
  | succ f ih =>
    intro iteration h1 h2
    simp only [runAux, hops iteration]
    by_cases hstop : iteration + 1 ≥ m
    · have hex : exhausted (some m) iteration = true := by
        simp [exhausted]; omega
      rw [hex]
      simp only [if_true]
      rw [show iteration + 1 = m from by omega, show iteration = m - 1 from by omega]
    · have hex : exhausted (some m) iteration = false := by
        simp [exhausted]; omega
      rw [hex]
      simp only [Bool.false_eq_true, if_false]
      exact ih (iteration + 1) (by omega) (by omega)

theorem geom_wait_cons (d g : ℚ) (k : ℕ) :
    (List.range (k + 1)).map (fun j => d * g ^ j) =
      d :: (List.range k).map (fun j => d * g * g ^ j) := by
  rw [List.range_succ_eq_map, List.map_cons, List.map_map]
  have hfun : ((fun j => d * g ^ j) ∘ Nat.succ) = fun j => d * g * g ^ j := by
    funext j
    simp only [Function.comp_apply, Nat.succ_eq_add_one, pow_succ]
    ring
  rw [hfun, pow_zero, mul_one]

theorem runAux_fail_with_delay {T E : Type} (m : ℕ) (growth : ℚ) (hg : 0 ≤ growth)
    (ops : ℕ → Except E T) (e : ℕ → E)
    (hops : ∀ i, ops i = Except.error (e i)) :
    ∀ (fuel iteration : ℕ) (d : ℚ), 0 ≤ d → iteration < m → m - iteration ≤ fuel →
      runAux (some m) growth ops fuel iteration (some d) =
        some (RunResult.result (Except.error (e (m - 1))) m
          ((List.range (m - 1 - iteration)).map (fun j => d * growth ^ j))) := by
  intro fuel
  induction fuel with
  | zero => intro iteration d hd h1 h2; omega
  | succ f ih =>
    intro iteration d hd h1 h2
    simp only [runAux, hops iteration]
    by_cases hstop : iteration + 1 ≥ m
    · have hex : exhausted (some m) iteration = true := by
        simp [exhausted]; omega
      rw [hex]
      simp only [if_true]
      rw [show m - 1 - iteration = 0 from by omega]
      simp only [List.range_zero, List.map_nil]
      rw [show iteration + 1 = m from by omega, show iteration = m - 1 from by omega]
    · have hex : exhausted (some m) iteration = false := by
        simp [exhausted]; omega
      rw [hex]
      simp only [Bool.false_eq_true, if_false]
      have hmul : durMulF32 d growth = some (d * growth) := by
        rw [durMulF32, if_neg (not_lt.mpr (mul_nonneg hd hg))]
      simp only [hmul]
      rw [ih (iteration + 1) (d * growth) (mul_nonneg hd hg) (by omega) (by omega)]
      rw [show m - 1 - iteration = (m - 1 - (iteration + 1)) + 1 from by omega,
        geom_wait_cons]
      rfl

theorem runAux_success_no_delay {T E : Type} (max_tries : Option ℕ) (growth : ℚ)
    (ops : ℕ → Except E T) (K : ℕ) (t : T)
    (hK : ops K = Except.ok t)
    (hbefore : ∀ j, j < K → ∃ err, ops j = Except.error err)
    (hstop : ∀ j, j < K → exhausted max_tries j = false) :
    ∀ (fuel iteration : ℕ), iteration ≤ K → K - iteration < fuel →
      runAux max_tries growth ops fuel iteration none =
        some (RunResult.result (Except.ok t) (K + 1) []) := by
  intro fuel
  induction fuel with
  | zero => intro iteration h1 h2; omega
  | succ f ih =>
    intro iteration h1 h2
    by_cases hit : iteration = K
    · subst hit
      simp [runAux, hK]
    · obtain ⟨err, herr⟩ := hbefore iteration (by omega)
      simp only [runAux, herr, hstop iteration (by omega), Bool.false_eq_true, if_false]
      exact ih (iteration + 1) (by omega) (by omega)

theorem runAux_success_with_delay {T E : Type} (max_tries : Option ℕ) (growth : ℚ)
    (hg : 0 ≤ growth) (ops : ℕ → Except E T) (K : ℕ) (t : T)
    (hK : ops K = Except.ok t)
    (hbefore : ∀ j, j < K → ∃ err, ops j = Except.error err)
    (hstop : ∀ j, j < K → exhausted max_tries j = false) :
    ∀ (fuel iteration : ℕ) (d : ℚ), 0 ≤ d → iteration ≤ K → K - iteration < fuel →
      ∃ ws, runAux max_tries growth ops fuel iteration (some d) =
        some (RunResult.result (Except.ok t) (K + 1) ws) := by
  intro fuel
  induction fuel with
  | zero => intro iteration d hd h1 h2; omega
  | succ f ih =>
    intro iteration d hd h1 h2
    by_cases hit : iteration = K
    · subst hit
      exact ⟨[], by simp [runAux, hK]⟩
    · obtain ⟨err, herr⟩ := hbefore iteration (by omega)
      simp only [runAux, herr, hstop iteration (by omega), Bool.false_eq_true, if_false]
      have hmul : durMulF32 d growth = some (d * growth) := by
        rw [durMulF32, if_neg (not_lt.mpr (mul_nonneg hd hg))]
      simp only [hmul]
      obtain ⟨ws, hws⟩ := ih (iteration + 1) (d * growth) (mul_nonneg hd hg)
        (by omega) (by omega)
      rw [hws]
      exact ⟨d :: ws, rfl⟩

theorem runAux_safe_isSome {T E : Type} (m : ℕ) (growth : ℚ) (hg : 0 ≤ growth)
    (ops : ℕ → Except E T) :
    ∀ (fuel iteration : ℕ) (delay : Option ℚ),
      (∀ d, delay = some d → 0 ≤ d) → iteration < m → m - iteration ≤ fuel →
      ∃ r c ws, runAux (some m) growth ops fuel iteration delay =
        some (RunResult.result r c ws) := by
  intro fuel
  induction fuel with
  | zero => intro iteration delay hdel h1 h2; omega
  | succ f ih =>
    intro iteration delay hdel h1 h2
    cases hop : ops iteration with
    | ok res =>
      exact ⟨Except.ok res, iteration + 1, [], by simp [runAux, hop]⟩
    | error err =>
      by_cases hstop : iteration + 1 ≥ m
      · have hex : exhausted (some m) iteration = true := by
          simp [exhausted]; omega
        exact ⟨Except.error err, iteration + 1, [], by simp [runAux, hop, hex]⟩
      · have hex : exhausted (some m) iteration = false := by
          simp [exhausted]; omega
        cases hdcase : delay with
        | none =>
          obtain ⟨r, c, ws, hr⟩ := ih (iteration + 1) none (fun d h => by cases h)
            (by omega) (by omega)
          exact ⟨r, c, ws, by simp only [runAux, hop, hex, Bool.false_eq_true, if_false]; exact hr⟩
        | some d =>
          have hd : 0 ≤ d := hdel d hdcase
          have hmul : durMulF32 d growth = some (d * growth) := by
            rw [durMulF32, if_neg (not_lt.mpr (mul_nonneg hd hg))]
          obtain ⟨r, c, ws, hr⟩ := ih (iteration + 1) (some (d * growth))
            (fun d2 h2 => by rw [← Option.some.inj h2]; exact mul_nonneg hd hg)
            (by omega) (by omega)
          refine ⟨r, c, d :: ws, ?_⟩
          simp only [runAux, hop, hex, Bool.false_eq_true, if_false, hmul, hr]
          rfl

theorem runAux_safe_no_panic {T E : Type} (max_tries : Option ℕ) (growth : ℚ)
    (hg : 0 ≤ growth) (ops : ℕ → Except E T) :
    ∀ (fuel iteration : ℕ) (delay : Option ℚ),
      (∀ d, delay = some d → 0 ≤ d) →
      ∀ (c : ℕ) (ws : List ℚ),
        runAux max_tries growth ops fuel iteration delay ≠
          some (RunResult.panicked c ws) := by
  intro fuel
  induction fuel with
  | zero => intro iteration delay hdel c ws h; simp [runAux] at h
  | succ f ih =>
    intro iteration delay hdel c ws h
    cases hop : ops iteration with
    | ok res => simp [runAux, hop] at h
    | error err =>
      simp only [runAux, hop] at h
      cases hex : exhausted max_tries iteration with
      | true => rw [hex] at h; simp at h
      | false =>
        rw [hex] at h
        simp only [Bool.false_eq_true, if_false] at h
        cases delay with
        | none => exact ih (iteration + 1) none (fun d hd => by cases hd) c ws h
        | some d =>
          have hd : 0 ≤ d := hdel d rfl
          have hmul : durMulF32 d growth = some (d * growth) := by
            rw [durMulF32, if_neg (not_lt.mpr (mul_nonneg hd hg))]
          simp only [hmul] at h
          rcases Option.map_eq_some'.mp h with ⟨b, hb, hadd⟩
          cases b with
          | result r c2 ws2 =>
            rw [RunResult.addWait] at hadd
            exact RunResult.noConfusion hadd
          | panicked c2 ws2 =>
            rw [RunResult.addWait] at hadd
            exact ih (iteration + 1) (some (d * growth))
              (fun d2 hd2 => by rw [← Option.some.inj hd2]; exact mul_nonneg hd hg)
              c2 ws2 hb

theorem runAux_unbounded_ne_error {T E : Type} (growth : ℚ)
    (ops : ℕ → Except E T) :
    ∀ (fuel iteration : ℕ) (delay : Option ℚ) (err : E) (c : ℕ) (ws : List ℚ),
      runAux none growth ops fuel iteration delay ≠
        some (RunResult.result (Except.error err) c ws) := by
  intro fuel
  induction fuel with
  | zero => intro iteration delay err c ws h; simp [runAux] at h
  | succ f ih =>
    intro iteration delay err c ws h
    cases hop : ops iteration with
    | ok res =>
      simp [runAux, hop] at h
    | error e2 =>
      simp only [runAux, hop, show exhausted none iteration = false from rfl,
        Bool.false_eq_true, if_false] at h
      cases delay with
      | none => exact ih (iteration + 1) none err c ws h
      | some d =>
        cases hm : durMulF32 d growth with
        | none => simp only [hm] at h; exact RunResult.noConfusion (Option.some.inj h)
        | some nd =>
          simp only [hm] at h
          rcases Option.map_eq_some'.mp h with ⟨b, hb, hadd⟩
          cases b with
          | result r c2 ws2 =>
            cases r with
            | ok t2 =>
              rw [RunResult.addWait] at hadd
              exact Except.noConfusion (RunResult.result.inj hadd).1
            | error e3 =>
              rw [RunResult.addWait] at hadd
              obtain ⟨hr, hc, hw⟩ := RunResult.result.inj hadd
              rw [hr] at hb
              exact ih (iteration + 1) (some nd) err c2 ws2 hb
          | panicked c2 ws2 =>
            rw [RunResult.addWait] at hadd
            exact RunResult.noConfusion hadd

/-- C1 (amended): for every policy with max_tries = some n (n ≥ 1) whose
delay configuration cannot drive the delay-growth multiplication negative
(no delay configured, or a non-negative delay together with a non-negative
growth magnitude — a negative magnitude with a positive delay makes the
loop panic, see the counterexample), and every operation that fails on
every invocation, run invokes the operation exactly n times and returns the
failure value produced by the n-th invocation unchanged. -/
theorem run_always_fail_returns_nth_error {T E : Type}
    (a : Attempt (ℕ → Except E T)) (n : ℕ) (e : ℕ → E)
    (hmax : a.max_tries = some n) (hn : 1 ≤ n)
    (hops : ∀ i, a.func i = Except.error (e i))
    (hsafe : a.DelaySafe) (fuel : ℕ) (hfuel : n ≤ fuel) :
    ∃ waits, a.run fuel =
      some (RunResult.result (Except.error (e (n - 1))) n waits) := by
  simp only [Attempt.run]
  rw [hmax]
  cases hd : a.delay with
  | none =>
    exact ⟨[], runAux_fail_no_delay n a.delay_growth_magnitude a.func e hops fuel 0
      (by omega) (by omega)⟩
  | some d =>
    obtain ⟨hd0, hg⟩ := hsafe d hd
    exact ⟨_, runAux_fail_with_delay n a.delay_growth_magnitude hg a.func e hops
      fuel 0 d hd0 (by omega) (by omega)⟩

/-- Witness for run_always_fail_returns_nth_error at a concrete policy:
delay 2, growth 3, four tries, always-failing operation. -/
theorem run_always_fail_returns_nth_error_witness :
    ∃ waits, posGrowthFourTries.run 4 =
      some (RunResult.result (Except.error ()) 4 waits) :=
  run_always_fail_returns_nth_error posGrowthFourTries 4 (fun _ => ()) rfl
    (by omega) (fun _ => rfl)
    (fun d hd => by
      simp [posGrowthFourTries] at hd
      subst hd
      norm_num [posGrowthFourTries])
    4 (by omega)

/-- C1 counterexample: the claim as stated fails on the policy
negGrowthTwoTries (delay 1, growth magnitude -1, max_tries some 2) with an
always-failing operation: instead of invoking the operation twice and
returning the second failure, run panics inside Duration.mul_f32 after a
single invocation, because 1 * (-1) is a negative duration. -/
theorem run_always_fail_counterexample :
    negGrowthTwoTries.run 10 = some (RunResult.panicked 1 [1]) ∧
    negGrowthTwoTries.run 10 ≠
      some (RunResult.result (Except.error ()) 2 [1]) := by
  have h : negGrowthTwoTries.run 10 = some (RunResult.panicked 1 [1]) := by
    norm_num [negGrowthTwoTries, Attempt.run, runAux, durMulF32, exhausted, alwaysFail]
  refine ⟨h, ?_⟩
  rw [h]
  intro hc
  exact RunResult.noConfusion (Option.some.inj hc)

/-- C2 (amended): for every delay-safe policy (no delay, or a non-negative
delay with a non-negative growth magnitude — a negative magnitude with a
positive delay panics before the success is reached, see the
counterexample) with max_tries = some n, and every operation whose first
success is its k-th invocation (k ≤ n), run invokes the operation exactly k
times and returns that success value; no invocation after the k-th occurs. -/
theorem run_first_success_stops {T E : Type}
    (a : Attempt (ℕ → Except E T)) (n k : ℕ) (t : T)
    (hmax : a.max_tries = some n) (hk : 1 ≤ k) (hkn : k ≤ n)
    (hsucc : a.func (k - 1) = Except.ok t)
    (hbefore : ∀ j, j < k - 1 → ∃ err, a.func j = Except.error err)
    (hsafe : a.DelaySafe) (fuel : ℕ) (hfuel : k ≤ fuel) :
    ∃ waits, a.run fuel = some (RunResult.result (Except.ok t) k waits) := by
  have hstop : ∀ j, j < k - 1 → exhausted (some n) j = false := by
    intro j hj
    simp only [exhausted, decide_eq_false_iff_not]
    omega
  simp only [Attempt.run]
  rw [hmax]
  cases hd : a.delay with
  | none =>
    refine ⟨[], ?_⟩
    rw [runAux_success_no_delay (some n) a.delay_growth_magnitude a.func (k - 1) t
      hsucc hbefore hstop fuel 0 (by omega) (by omega)]
    rw [show k - 1 + 1 = k from by omega]
  | some d =>
    obtain ⟨hd0, hg⟩ := hsafe d hd
    obtain ⟨ws, hws⟩ := runAux_success_with_delay (some n) a.delay_growth_magnitude hg
      a.func (k - 1) t hsucc hbefore hstop fuel 0 d hd0 (by omega) (by omega)
    refine ⟨ws, ?_⟩
    rw [hws, show k - 1 + 1 = k from by omega]

/-- Witness for run_first_success_stops at a concrete policy: delay 1,
growth 2, three tries, operation succeeding on its second invocation. -/
theorem run_first_success_stops_witness :
    ∃ waits, posGrowthSucceedsSecond.run 3 =
      some (RunResult.result (Except.ok ()) 2 waits) :=
  run_first_success_stops posGrowthSucceedsSecond 3 2 () rfl (by omega) (by omega)
    rfl (fun j hj => ⟨(), by interval_cases j <;> rfl⟩)
    (fun d hd => by
      simp [posGrowthSucceedsSecond] at hd
      subst hd
      norm_num [posGrowthSucceedsSecond])
    3 (by omega)

/-- C2 counterexample: the claim as stated fails on the policy
negGrowthSucceedsSecond (delay 1, growth magnitude -1, max_tries some 3)
with an operation that succeeds on its second invocation (k = 2 ≤ 3):
instead of invoking the operation twice and returning the success, run
panics inside Duration.mul_f32 after the first failed invocation. -/
theorem run_first_success_counterexample :
    negGrowthSucceedsSecond.run 10 = some (RunResult.panicked 1 [1]) ∧
    negGrowthSucceedsSecond.run 10 ≠
      some (RunResult.result (Except.ok ()) 2 [1]) := by
  have h : negGrowthSucceedsSecond.run 10 = some (RunResult.panicked 1 [1]) := by
    norm_num [negGrowthSucceedsSecond, Attempt.run, runAux, durMulF32, exhausted,
      failThenOk]
  refine ⟨h, ?_⟩
  rw [h]
  intro hc
  exact RunResult.noConfusion (Option.some.inj hc)

/-- C3 (amended): for every policy with base delay some D (D ≥ 0, as every
Rust Duration is), non-negative growth magnitude g (a negative one panics,
see the counterexample), max_tries = some n with n ≥ 2, and an operation
failing on every invocation, run performs exactly n-1 waits whose i-th
entry (0-based) is D * g ^ i, i.e. the durations D, D*g, ..., D*g^(n-2) in
order. -/
theorem run_always_fail_waits_geometric {T E : Type}
    (a : Attempt (ℕ → Except E T)) (n : ℕ) (D : ℚ) (e : ℕ → E)
    (hmax : a.max_tries = some n) (hn : 2 ≤ n)
    (hdelay : a.delay = some D) (hD : 0 ≤ D)
    (hg : 0 ≤ a.delay_growth_magnitude)
    (hops : ∀ i, a.func i = Except.error (e i))
    (fuel : ℕ) (hfuel : n ≤ fuel) :
    ((List.range (n - 1)).map
        (fun i => D * a.delay_growth_magnitude ^ i)).length = n - 1 ∧
    a.run fuel = some (RunResult.result (Except.error (e (n - 1))) n
      ((List.range (n - 1)).map (fun i => D * a.delay_growth_magnitude ^ i))) := by
  refine ⟨by simp, ?_⟩
  simp only [Attempt.run]
  rw [hmax, hdelay]
  rw [runAux_fail_with_delay n a.delay_growth_magnitude hg a.func e hops
    fuel 0 D hD (by omega) (by omega)]
  rw [show n - 1 - 0 = n - 1 from by omega]

/-- Witness for run_always_fail_waits_geometric at a concrete policy:
delay 2, growth 3, four tries — the three waits are 2, 6, 18. -/
theorem run_always_fail_waits_geometric_witness :
    ((List.range 3).map
        (fun i => (2 : ℚ) * posGrowthFourTries.delay_growth_magnitude ^ i)).length = 3 ∧
    posGrowthFourTries.run 4 = some (RunResult.result (Except.error ()) 4
      ((List.range 3).map
        (fun i => (2 : ℚ) * posGrowthFourTries.delay_growth_magnitude ^ i))) :=
  run_always_fail_waits_geometric posGrowthFourTries 4 2 (fun _ => ()) rfl
    (by omega) rfl (by norm_num) (by norm_num [posGrowthFourTries]) (fun _ => rfl)
    4 (by omega)

/-- C3 counterexample: the claim as stated fails on negGrowthThreeTries
(delay 1, growth magnitude -1, max_tries some 3) with an always-failing
operation: the claim asks for the n-1 = 2 waits 1 and 1*(-1) = -1, but a
negative duration cannot be produced — Duration.mul_f32 panics after the
first (and only) wait, so run panics after a single invocation and a single
wait instead of returning the third failure after two waits. -/
theorem run_always_fail_waits_counterexample :
    negGrowthThreeTries.run 10 = some (RunResult.panicked 1 [1]) ∧
    negGrowthThreeTries.run 10 ≠
      some (RunResult.result (Except.error ()) 3 [1, -1]) := by
  have h : negGrowthThreeTries.run 10 = some (RunResult.panicked 1 [1]) := by
    norm_num [negGrowthThreeTries, Attempt.run, runAux, durMulF32, exhausted, alwaysFail]
  refine ⟨h, ?_⟩
  rw [h]
  intro hc
  exact RunResult.noConfusion (Option.some.inj hc)

/-- C4: for every policy state, calling max_tries with 0 hits the
assertion (modelled by none) regardless of any other configuration, and
calling it with any n ≥ 1 does not panic and sets max_tries to some n,
leaving every other field unchanged. -/
theorem set_max_tries_zero_panics (F : Type) (a : Attempt F) :
    a.set_max_tries 0 = none ∧
    ∀ n, 1 ≤ n → a.set_max_tries n = some { a with max_tries := some n } := by
  refine ⟨rfl, ?_⟩
  intro n hn
  simp only [Attempt.set_max_tries]
  rw [if_pos (by omega : 0 < n)]

/-- Witness for set_max_tries_zero_panics at the default policy and n = 3. -/
theorem set_max_tries_zero_panics_witness :
    (Attempt.to ()).set_max_tries 0 = none ∧
    (Attempt.to ()).set_max_tries 3 = some { Attempt.to () with max_tries := some 3 } :=
  ⟨(set_max_tries_zero_panics Unit (Attempt.to ())).1,
   (set_max_tries_zero_panics Unit (Attempt.to ())).2 3 (by omega)⟩

/-- C5: for every policy with max_tries = some 1 and an always-failing
operation, run performs exactly one invocation and returns that
invocation's failure immediately with no wait at all, whatever delay and
growth magnitude are configured (the exhaustion check precedes the wait). -/
theorem run_single_try_immediate_failure {T E : Type}
    (a : Attempt (ℕ → Except E T)) (e : ℕ → E)
    (hmax : a.max_tries = some 1)
    (hops : ∀ i, a.func i = Except.error (e i))
    (fuel : ℕ) (hfuel : 1 ≤ fuel) :
    a.run fuel = some (RunResult.result (Except.error (e 0)) 1 []) := by
  obtain ⟨f, rfl⟩ : ∃ f, fuel = f + 1 := ⟨fuel - 1, by omega⟩
  simp only [Attempt.run, runAux, hops 0, hmax]
  simp [exhausted]

/-- Witness for run_single_try_immediate_failure at a policy with delay 5
and growth magnitude -7: even this degenerate configuration returns the
first failure immediately, with no wait and no panic. -/
theorem run_single_try_immediate_failure_witness :
    oneTryNegGrowth.run 1 = some (RunResult.result (Except.error ()) 1 []) :=
  run_single_try_immediate_failure oneTryNegGrowth (fun _ => ()) rfl (fun _ => rfl)
    1 (by omega)

/-- C6: for every policy and every sequence of operation outcomes, the
blocking loop and the suspending loop return the same result, with the same
number of invocations and the same wait-duration trace — the two loops are
identical except for how they wait, which the trace does not distinguish. -/
theorem run_async_agrees_with_run (T E : Type)
    (a : Attempt (ℕ → Except E T)) (fuel : ℕ) :
    a.run_async fuel = a.run fuel := by
  simp only [Attempt.run, Attempt.run_async]
  exact runAux_async_eq a.max_tries a.delay_growth_magnitude a.func fuel 0 a.delay

/-- C7: for every operation that eventually succeeds (first success on its
(k+1)-th invocation), the unbounded convenience call infinitely returns
that unwrapped success value, and the failure branch of the underlying
unbounded run is unreachable: with max_tries removed, the run can never
return an error result at any fuel. -/
theorem infinitely_returns_first_success (T E : Type) (func : ℕ → Except E T)
    (k : ℕ) (t : T) (hk : func k = Except.ok t)
    (hbefore : ∀ j, j < k → ∃ err, func j = Except.error err)
    (fuel : ℕ) (hfuel : k < fuel) :
    Attempt.infinitely func fuel = some t ∧
    ∀ (fuel2 c : ℕ) (err : E) (ws : List ℚ),
      (Attempt.to func).no_max_tries.run fuel2 ≠
        some (RunResult.result (Except.error err) c ws) := by
  have hrun : (Attempt.to func).no_max_tries.run fuel =
      some (RunResult.result (Except.ok t) (k + 1) []) := by
    simp only [Attempt.run, Attempt.no_max_tries, Attempt.to]
    exact runAux_success_no_delay none DEFAULT_DELAY_GROWTH func k t hk hbefore
      (fun j hj => rfl) fuel 0 (by omega) (by omega)
  refine ⟨?_, ?_⟩
  · simp only [Attempt.infinitely, hrun]
  · intro fuel2 c err ws
    simp only [Attempt.run, Attempt.no_max_tries, Attempt.to]
    exact runAux_unbounded_ne_error DEFAULT_DELAY_GROWTH func fuel2 0 none err c ws

/-- Witness for infinitely_returns_first_success at an operation that fails
twice and then succeeds. -/
theorem infinitely_returns_first_success_witness :
    Attempt.infinitely failTwiceThenOk 3 = some () :=
  (infinitely_returns_first_success Unit Unit failTwiceThenOk 2 () rfl
    (fun j hj => ⟨(), by interval_cases j <;> rfl⟩) 3 (by omega)).1

/-- C8 (amended): delay_growth_magnitude accepts any factor with no
validation (the configuration call is total and just stores the field),
and execution never fails because of the factor provided the factor is
non-negative: for every policy — with or without a try cap — whose growth
magnitude is non-negative and whose configured delay is non-negative (as
every Rust Duration is), and every operation-outcome sequence, the run can
never panic, at any fuel; and a policy with a try cap n ≥ 1 moreover
always completes to an ordinary result once given fuel n.  A negative
factor together with a positive delay, by contrast, makes execution panic
(see the counterexample). -/
theorem growth_factor_unvalidated (F : Type) (T E : Type)
    (b : Attempt F) (m : ℚ)
    (a : Attempt (ℕ → Except E T))
    (hg : 0 ≤ a.delay_growth_magnitude)
    (hdel : ∀ d, a.delay = some d → 0 ≤ d) :
    (b.set_delay_growth_magnitude m = { b with delay_growth_magnitude := m }) ∧
    (∀ (fuel c : ℕ) (ws : List ℚ),
      a.run fuel ≠ some (RunResult.panicked c ws)) ∧
    (∀ n fuel, a.max_tries = some n → 1 ≤ n → n ≤ fuel →
      ∃ r c ws, a.run fuel = some (RunResult.result r c ws)) := by
  refine ⟨rfl, ?_, ?_⟩
  · intro fuel c ws
    simp only [Attempt.run]
    exact runAux_safe_no_panic a.max_tries a.delay_growth_magnitude hg a.func
      fuel 0 a.delay hdel c ws
  · intro n fuel hmax hn hfuel
    simp only [Attempt.run]
    rw [hmax]
    exact runAux_safe_isSome n a.delay_growth_magnitude hg a.func fuel 0 a.delay
      hdel (by omega) (by omega)

/-- Witness for growth_factor_unvalidated: the configuration call accepts
the negative factor -3 without complaint; the unbounded
retry-forever-with-backoff policy (cap removed, delay 1, default growth
5/4) around an always-failing operation cannot panic; and the default
capped policy runs to an ordinary result. -/
theorem growth_factor_unvalidated_witness :
    ((Attempt.to ()).set_delay_growth_magnitude (-3) =
      { Attempt.to () with delay_growth_magnitude := -3 }) ∧
    unboundedDelayTries.run 4 ≠ some (RunResult.panicked 1 [1]) ∧
    ∃ r c ws, (Attempt.to alwaysFail).run 10 = some (RunResult.result r c ws) :=
  ⟨(growth_factor_unvalidated Unit Unit Unit (Attempt.to ()) (-3) unboundedDelayTries
      (by norm_num [unboundedDelayTries, Attempt.to, Attempt.no_max_tries,
        Attempt.set_delay, DEFAULT_DELAY_GROWTH])
      (fun d hd => by
        simp [unboundedDelayTries, Attempt.to, Attempt.no_max_tries,
          Attempt.set_delay] at hd
        subst hd
        norm_num)).1,
   (growth_factor_unvalidated Unit Unit Unit (Attempt.to ()) (-3) unboundedDelayTries
      (by norm_num [unboundedDelayTries, Attempt.to, Attempt.no_max_tries,
        Attempt.set_delay, DEFAULT_DELAY_GROWTH])
      (fun d hd => by
        simp [unboundedDelayTries, Attempt.to, Attempt.no_max_tries,
          Attempt.set_delay] at hd
        subst hd
        norm_num)).2.1 4 1 [1],
   (growth_factor_unvalidated Unit Unit Unit (Attempt.to ()) (-3)
      (Attempt.to alwaysFail)
      (by norm_num [Attempt.to, DEFAULT_DELAY_GROWTH])
      (fun d hd => by simp [Attempt.to] at hd)).2.2 10 10 rfl (by omega) (by omega)⟩

/-- C8 counterexample: the claim as stated — execution never fails because
of the growth-factor value — is false.  Two policies identical except for
the factor, both with delay 1 and the default ten tries around an
always-failing operation: with factor -1 the run panics inside
Duration.mul_f32 after one invocation and one wait, while with factor 1 it
runs all ten invocations and returns the tenth failure after nine waits. -/
theorem growth_factor_neg_panic_counterexample :
    negGrowthDefaultTries.run 10 = some (RunResult.panicked 1 [1]) ∧
    oneGrowthDefaultTries.run 10 =
      some (RunResult.result (Except.error ()) 10 (List.replicate 9 1)) := by
  constructor
  · norm_num [negGrowthDefaultTries, Attempt.run, runAux, durMulF32, exhausted,
      Attempt.to, Attempt.set_delay, Attempt.set_delay_growth_magnitude, alwaysFail,
      DEFAULT_MAX_TRIES]
  · norm_num [oneGrowthDefaultTries, Attempt.run, runAux, durMulF32, exhausted,
      Attempt.to, Attempt.set_delay, Attempt.set_delay_growth_magnitude, alwaysFail,
      DEFAULT_MAX_TRIES, RunResult.addWait, List.replicate]

/-- C9: every configuration operation returns a policy in which only the
field it names differs — the operation reference and every other field are
unchanged — and, being a pure function of the consumed policy value, it has
no effect beyond the returned value. -/
theorem config_ops_frame (F : Type) (a : Attempt F) (n : ℕ) (d m : ℚ) :
    (a.no_max_tries = Attempt.mk a.func a.delay a.delay_growth_magnitude none) ∧
    (1 ≤ n → a.set_max_tries n =
      some (Attempt.mk a.func a.delay a.delay_growth_magnitude (some n))) ∧
    (a.no_delay = Attempt.mk a.func none a.delay_growth_magnitude a.max_tries) ∧
    (a.set_delay d = Attempt.mk a.func (some d) a.delay_growth_magnitude a.max_tries) ∧
    (a.set_delay_growth_magnitude m = Attempt.mk a.func a.delay m a.max_tries) := by
  cases a
  refine ⟨rfl, ?_, rfl, rfl, rfl⟩
  intro hn
  simp only [Attempt.set_max_tries]
  rw [if_pos (by omega : 0 < n)]

/-- Witness for config_ops_frame at the default policy with n = 2. -/
theorem config_ops_frame_witness :
    (Attempt.to ()).set_max_tries 2 =
      some (Attempt.mk () none DEFAULT_DELAY_GROWTH (some 2)) :=
  (config_ops_frame Unit (Attempt.to ()) 2 3 7).2.1 (by omega)

/-- C10: configuration calls overwrite per field with last-write-wins
semantics: clearing then setting the delay equals just setting it, setting
then clearing equals just clearing, and removing the try cap then setting
it equals just setting it. -/
theorem config_last_write_wins (F : Type) (a : Attempt F) (d : ℚ) (n : ℕ)
    (hn : 1 ≤ n) :
    ((a.no_delay).set_delay d = a.set_delay d) ∧
    ((a.set_delay d).no_delay = a.no_delay) ∧
    ((a.no_max_tries).set_max_tries n = a.set_max_tries n) := by
  cases a
  exact ⟨rfl, rfl, rfl⟩

/-- Witness for config_last_write_wins at the default policy, d = 2, n = 4. -/
theorem config_last_write_wins_witness :
    (((Attempt.to ()).no_delay).set_delay 2 = (Attempt.to ()).set_delay 2) ∧
    (((Attempt.to ()).set_delay 2).no_delay = (Attempt.to ()).no_delay) ∧
    (((Attempt.to ()).no_max_tries).set_max_tries 4 = (Attempt.to ()).set_max_tries 4) :=
  config_last_write_wins Unit (Attempt.to ()) 2 4 (by omega)
